import Mathlib

/-!
Verification of the node-mplex stream multiplexer (jc-lab/node-mplex).

The development shallowly embeds the repository's TypeScript sources:
* `src/stream.ts` — per-stream state machine, outbound fragmentation, and the
  frame `Encoder` (appended to the same file);
* `src/mplex.ts` — the `MplexStreamMuxer` (registries, dispatch, limits);
* the frame `Decoder` with its `readVarInt` helper (appended after the tests
  in `test/coder.spec.ts`).

Bytes are modelled as `Nat` (values below 256 on the wire), byte buffers as
`List Nat`, and the JavaScript 32-bit bitwise semantics of `<<`, `|`, `>>`
are made explicit with `% 2^32` and a signed reinterpretation where the
source relies on them.

Parts of the repository referenced by the sources but absent from `src/`
(`message-types.ts`, the npm `varint` encoder, the npm rate limiter) are
modelled from the specification and marked as such in their doc comments.
-/

/-! ## Message types and messages

Modelled from the spec: `message-types.ts` is absent from `src/`; the spec
fixes the seven wire types `NEW_STREAM=0`, `MESSAGE_RECEIVER=1`,
`MESSAGE_INITIATOR=2`, `CLOSE_RECEIVER=3`, `CLOSE_INITIATOR=4`,
`RESET_RECEIVER=5`, `RESET_INITIATOR=6`, and `MessageTypeNames` is defined
exactly for those seven values. -/

/-- Modelled from the spec: `MessageTypeNames[t]` is non-null exactly for the
seven wire types `0..6` enumerated in `message-types.ts` (absent from src). -/
def hasMessageTypeName (t : Nat) : Bool := t < 7

/-- One mplex wire record, as produced by the decoder and consumed by the
encoder.  `id` is an `Int` because the decoder computes it with the JavaScript
signed 32-bit shift `h >> 3`.  `data` is present exactly when the decoder
attaches a payload. -/
structure Message where
  id : Int
  type : Nat
  data : Option (List Nat)
deriving DecidableEq

/-- The data-bearing test used by both coders:
`type === NEW_STREAM || type === MESSAGE_INITIATOR || type === MESSAGE_RECEIVER`. -/
def isDataType (t : Nat) : Bool := t == 0 || t == 2 || t == 1

/-! ## Varint codec -/

/-- Modelled from the spec: the npm `varint` encoder (absent from src) writes
unsigned LEB128, 7 bits per byte, most significant bit set on continuation.
Structural fuel makes the definition kernel-reducible; `leb128` supplies
ample fuel. -/
def leb128Go (fuel n : Nat) : List Nat :=
  match fuel with
  | 0 => []
  | fuel + 1 => if n < 128 then [n] else (n % 128 + 128) :: leb128Go fuel (n / 128)

/-- Unsigned LEB128 encoding of `n` (see `leb128Go`). -/
def leb128 (n : Nat) : List Nat := leb128Go (n + 1) n

/-- The decoder's `readVarInt` loop (`test/coder.spec.ts`, decoder part):
reads bytes from the remaining buffer, accumulating `res += (b & 0x7f) * 2^shift`,
and fails (`RangeError`) when the buffer is exhausted or `shift > 49`.
Returns the value and the number of bytes consumed. -/
def readVarIntGo : List Nat → Nat → Nat → Except Unit (Nat × Nat)
  | [], _, _ => .error ()
  | b :: rest, shift, res =>
    if 49 < shift then .error ()
    else
      let res2 := res + b % 128 * 2 ^ shift
      if 128 ≤ b then
        match readVarIntGo rest (shift + 7) res2 with
        | .error e => .error e
        | .ok (v, c) => .ok (v, c + 1)
      else .ok (res2, 1)

/-- `readVarInt(buf, offset)` from the decoder: value plus bytes consumed. -/
def readVarInt (buf : List Nat) (offset : Nat) : Except Unit (Nat × Nat) :=
  readVarIntGo (buf.drop offset) 0 0

/-! ## Encoder (`Encoder.write` in the part appended to `src/stream.ts`) -/

/-- Reinterpret the low 32 bits of `n` as a signed 32-bit integer, as the
JavaScript `>>` operator does with its left operand. -/
def toInt32 (n : Nat) : Int :=
  let m : Nat := n % 2 ^ 32
  if m < 2 ^ 31 then (m : Int) else (m : Int) - 2 ^ 32

/-- The header word `msg.id << 3 | msg.type` of `Encoder.write`.  JavaScript
`<<` and `|` operate on 32-bit integers, so the value wraps at `2^32`; the
npm varint encoder then emits the unsigned 32-bit reinterpretation. -/
def headerWord (m : Message) : Nat := (m.id.toNat * 8 + m.type) % 2 ^ 32

/-- `Encoder.write(msg)`: the returned chunks — a pooled header holding the
two varints, followed by the payload chunks when the type is data-bearing and
data is present.  The pool itself is an allocation detail; the chunks'
contents are what reach the wire. -/
def encodeChunks (m : Message) : List (List Nat) :=
  let payload := if isDataType m.type && m.data.isSome then m.data.getD [] else []
  let header := leb128 (headerWord m) ++ leb128 payload.length
  if isDataType m.type && m.data.isSome then [header, payload] else [header]

/-- Concatenation of the chunks returned by `Encoder.write`. -/
def encodeBytes (m : Message) : List Nat := (encodeChunks m).flatten

/-! ## Decoder (appended to `test/coder.spec.ts`) -/

/-- Errors `_decodeHeader` can throw: a `RangeError` from `readVarInt`
(short input or over-long varint), or the invalid-type `Error`. -/
inductive DecErr
  | malformedVarint
  | invalidType
deriving DecidableEq

/-- The decoder's parsed-header record `{ id, type, offset, length }`. -/
structure MessageHeader where
  id : Int
  type : Nat
  offset : Nat
  length : Nat
deriving DecidableEq

/-- `h >> 3` of the decoder: JavaScript converts `h` to a signed 32-bit
integer and arithmetically shifts, i.e. floor-divides by 8. -/
def jsShr3 (h : Nat) : Int := (toInt32 h).fdiv 8

/-- `Decoder._decodeHeader`: two varints, then `type = h & 7`; throws the
invalid-type error when `MessageTypeNames[type]` is undefined (type 7). -/
def decodeHeader (buf : List Nat) : Except DecErr MessageHeader :=
  match readVarInt buf 0 with
  | .error _ => .error .malformedVarint
  | .ok (h, c1) =>
    match readVarInt buf c1 with
    | .error _ => .error .malformedVarint
    | .ok (len, c2) =>
      let t := h % 8
      if hasMessageTypeName t then
        .ok { id := jsShr3 h, type := t, offset := c1 + c2, length := len }
      else .error .invalidType

/-- Mutable state of a `Decoder`: the accumulator and the pending header. -/
structure DecoderState where
  buffer : List Nat
  headerInfo : Option MessageHeader
deriving DecidableEq

/-- The `while` loop of `Decoder.write`.  A header-decoding failure of any
kind is caught by the surrounding `catch (_) { break }`, which keeps
`_headerInfo` null and stops; insufficient payload stops keeping the parsed
header.  Fuel is structural; each emitting iteration consumes at least two
buffer bytes, so `buffer.length + 1` fuel is ample. -/
def decodeLoop : Nat → List Nat → Option MessageHeader → List Message →
    List Message × List Nat × Option MessageHeader
  | 0, buffer, hi, acc => (acc, buffer, hi)
  | fuel + 1, buffer, hi, acc =>
    if buffer.isEmpty then (acc, buffer, hi)
    else
      match (match hi with | some h => some h | none => (decodeHeader buffer).toOption) with
      | none => (acc, buffer, none)
      | some h =>
        if buffer.length - h.offset < h.length then (acc, buffer, some h)
        else
          let msg : Message :=
            { id := h.id, type := h.type
              data := if isDataType h.type then some ((buffer.drop h.offset).take h.length) else none }
          decodeLoop fuel (buffer.drop (h.offset + h.length)) none (acc ++ [msg])

/-- `Decoder.write(chunk)`: null/empty chunks emit nothing; otherwise the
chunk is appended to the accumulator and the loop drains complete frames. -/
def decoderWrite (s : DecoderState) (chunk : List Nat) : List Message × DecoderState :=
  if chunk.isEmpty then ([], s)
  else
    let buffer := s.buffer ++ chunk
    let r := decodeLoop (buffer.length + 1) buffer s.headerInfo []
    (r.1, { buffer := r.2.1, headerInfo := r.2.2 })

/-- A fresh `Decoder`. -/
def freshDecoder : DecoderState := { buffer := [], headerInfo := none }

instance {ε α : Type _} [DecidableEq ε] [DecidableEq α] : DecidableEq (Except ε α)
  | .error x, .error y => decidable_of_iff (x = y) (by simp)
  | .ok x, .ok y => decidable_of_iff (x = y) (by simp)
  | .error _, .ok _ => isFalse (by simp)
  | .ok _, .error _ => isFalse (by simp)

/-! ## Outbound fragmentation (`write` handler in `createStream`, `src/stream.ts`)

The handler appends the written bytes to the pending `uint8ArrayList` and
drains: while the list is non-empty, if its length is at most `maxMsgSize`
the whole list is sent as one `MESSAGE_*` and the loop breaks, otherwise the
first `maxMsgSize` bytes are sent and consumed. -/

/-- The drain loop of the `write` handler, with structural fuel.  Each
iteration either stops or consumes at least one byte when `0 < M`, so
`buf.length` fuel is ample. -/
def fragmentsGo (M : Nat) : Nat → List Nat → List (List Nat)
  | 0, _ => []
  | fuel + 1, buf =>
    if buf.length = 0 then []
    else if buf.length ≤ M then [buf]
    else buf.take M :: fragmentsGo M fuel (buf.drop M)

/-- The payloads sent for a pending list `buf` with fragmentation ceiling `M`. -/
def fragments (M : Nat) (buf : List Nat) : List (List Nat) := fragmentsGo M buf.length buf

/-- The `MESSAGE_*` type the stream sends: `MESSAGE_INITIATOR` (2) for an
initiator, `MESSAGE_RECEIVER` (1) for a receiver (`InitiatorMessageTypes` /
`ReceiverMessageTypes`, modelled from the spec as `message-types.ts` is
absent from src). -/
def messageTypeOf (isInit : Bool) : Nat := if isInit then 2 else 1

/-- The frames emitted by one `stream.write(data)` call: the incoming bytes
join the pending list and the drain loop wraps each fragment in a
`MESSAGE_*` frame for stream `sid`. -/
def streamWriteFrames (M sid : Nat) (isInit : Bool) (pending data : List Nat) : List Message :=
  (fragments M (pending ++ data)).map
    (fun c => { id := (sid : Int), type := messageTypeOf isInit, data := some c })

/-! ## Per-stream state machine (`createStream`, `src/stream.ts`) -/

/-- Stable error kinds of the stream/muxer layer (§7 of the spec; the string
codes `ERR_STREAM_RESET`, `ERR_MPLEX_STREAM_RESET`, … in the sources). -/
inductive MuxErr
  | muxerClosed
  | tooManyOutboundStreams
  | tooManyOpenStreams
  | inputBufferFull
  | streamReset
  | streamAborted
  | streamAlreadyExists
deriving DecidableEq

/-- The stream state the multiplexer interacts with: the two monotone end
latches and the write-once `endErr` of `createStream`, the value its
`sourceReadableLength()` currently reports, the bytes delivered by
`sourcePush`, and a destruction marker for `stream.destroy(err)`. -/
structure SStream where
  sid : Nat
  isInitiator : Bool
  sourceEnded : Bool
  sinkEnded : Bool
  endErr : Option MuxErr
  srl : Nat
  pushed : List Nat
  destroyedWith : Option MuxErr
deriving DecidableEq

/-- A freshly created stream (`createStream` before any events). -/
def mkStream (isInit : Bool) (sid : Nat) : SStream :=
  { sid := sid, isInitiator := isInit, sourceEnded := false, sinkEnded := false
    endErr := none, srl := 0, pushed := [], destroyedWith := none }

/-- `onSourceEnd(err)`: first call latches `sourceEnded` and captures the
first error; later calls return immediately. -/
def onSourceEnd (err : Option MuxErr) (s : SStream) : SStream :=
  if s.sourceEnded then s
  else { s with sourceEnded := true
                endErr := if err.isSome && s.endErr.isNone then err else s.endErr }

/-- `onSinkEnd(err)`: first call latches `sinkEnded` and captures the first
error; later calls return immediately. -/
def onSinkEnd (err : Option MuxErr) (s : SStream) : SStream :=
  if s.sinkEnded then s
  else { s with sinkEnded := true
                endErr := if err.isSome && s.endErr.isNone then err else s.endErr }

/-- `reset()` (`src/stream.ts`): build the `StreamReset` error, abort the
reset controller, and end both halves with it.  The returned list holds the
frames handed to `send` during the call — `reset` performs no send. -/
def streamReset (s : SStream) : SStream × List Message :=
  (onSinkEnd (some MuxErr.streamReset) (onSourceEnd (some MuxErr.streamReset) s), [])

/-- `closeRead()`: returns at once when the source already ended, otherwise
pushes EOF locally and runs `onSourceEnd()` with no error. -/
def streamCloseRead (s : SStream) : SStream := onSourceEnd none s

/-! ## The multiplexer (`MplexStreamMuxer`, `src/mplex.ts`) -/

/-- The `MplexInit` options with their documented defaults. -/
structure MuxerConfig where
  maxMsgSize : Nat := 1048576
  maxInboundStreams : Nat := 1024
  maxOutboundStreams : Nat := 1024
  maxStreamBufferSize : Nat := 4194304
  disconnectThreshold : Nat := 5
deriving DecidableEq

/-- The muxer state: the next-initiator-id counter, the two registries
(association lists `id → stream` mirroring the `Map`s), the close latch, a
destruction marker for `this.destroy(err)`, the rate-limiter token count
(modelled from the spec: `rate-limiter-flexible` is an external package; a
token bucket of capacity `disconnectThreshold`, not refilled within the
one-second window the claims consider), the frames pushed to the sink, and
the streams handed to `onStreamEnd` after removal from a registry. -/
structure MuxerState where
  streamId : Nat
  initiators : List (Nat × SStream)
  receivers : List (Nat × SStream)
  closed : Bool
  destroyedWith : Option MuxErr
  rlTokens : Nat
  outFrames : List Message
  endedStreams : List SStream
deriving DecidableEq

/-- A newly constructed muxer. -/
def freshMuxer (cfg : MuxerConfig) : MuxerState :=
  { streamId := 0, initiators := [], receivers := [], closed := false
    destroyedWith := none, rlTokens := cfg.disconnectThreshold
    outFrames := [], endedStreams := [] }

/-- `Map.get` on a registry. -/
def regLookup : List (Nat × SStream) → Nat → Option SStream
  | [], _ => none
  | (k, v) :: rest, i => if i = k then some v else regLookup rest i

/-- In-place mutation of the stream object registered under `i`. -/
def regUpdate : List (Nat × SStream) → Nat → (SStream → SStream) → List (Nat × SStream)
  | [], _, _ => []
  | (k, v) :: rest, i, f => if i = k then (k, f v) :: rest else (k, v) :: regUpdate rest i f

/-- `Map.delete` on a registry. -/
def regErase (reg : List (Nat × SStream)) (i : Nat) : List (Nat × SStream) :=
  reg.filter (fun p => p.1 != i)

/-- The registry dispatch of `_handleIncoming`:
`(type & 1) === 1 ? this._streams.initiators : this._streams.receivers`. -/
def targetRegistry (st : MuxerState) (t : Nat) : List (Nat × SStream) :=
  if t % 2 = 1 then st.initiators else st.receivers

/-- Write back the registry selected by `type & 1`. -/
def setTarget (st : MuxerState) (t : Nat) (reg : List (Nat × SStream)) : MuxerState :=
  if t % 2 = 1 then { st with initiators := reg } else { st with receivers := reg }

/-- `pushToSink(msg)`: encode and push onto the readable side; the model
records the frame itself. -/
def pushFrame (st : MuxerState) (m : Message) : MuxerState :=
  { st with outFrames := st.outFrames ++ [m] }

/-- Decimal UTF-8 bytes of `id`, the default stream name. -/
def decimalDigits (n : Nat) : List Nat := (Nat.toDigits 10 n).map Char.toNat

/-- `newStream(name?)` followed by `_newStream`: reject on the close latch;
advance the id counter; reject when the initiators map is exactly at
`maxOutboundStreams`; reject a duplicate id; otherwise create the stream
(whose start action sends `NEW_STREAM` with the UTF-8 name) and register it. -/
def newStream (cfg : MuxerConfig) (name : Option (List Nat)) (st : MuxerState) :
    Except MuxErr Nat × MuxerState :=
  if st.closed then (.error .muxerClosed, st)
  else
    let id := st.streamId
    let st1 := { st with streamId := id + 1 }
    if st1.initiators.length = cfg.maxOutboundStreams then (.error .tooManyOutboundStreams, st1)
    else if (regLookup st1.initiators id).isSome then (.error .streamAlreadyExists, st1)
    else
      let nameBytes := name.getD (decimalDigits id)
      let st2 := pushFrame st1 { id := (id : Int), type := 0, data := some nameBytes }
      (.ok id, { st2 with initiators := st2.initiators ++ [(id, mkStream true id)] })

/-- `_handleIncoming(message)` (`src/mplex.ts`).  `NEW_STREAM` at the inbound
cap answers with `RESET_RECEIVER`, then consumes a rate-limiter token,
destroying the muxer with `TooManyOpenStreams` when the limiter rejects;
under the cap it registers a receiver stream.  Every other type selects its
registry by `type & 1`, drops silently on a missing id, and then dispatches:
`MESSAGE_*` resets and destroys the stream with `InputBufferFull` when the
readable length exceeds `maxStreamBufferSize` and `sourcePush`es otherwise;
`CLOSE_*` runs `closeRead`; `RESET_*` runs `reset` (which sends nothing) and
the ended stream leaves the registry via `onEnd`. -/
def handleIncoming (cfg : MuxerConfig) (st : MuxerState) (msg : Message) : MuxerState :=
  let key := msg.id.toNat
  if msg.type = 0 then
    if st.receivers.length = cfg.maxInboundStreams then
      let st1 := pushFrame st { id := msg.id, type := 5, data := none }
      if st1.rlTokens = 0 then { st1 with destroyedWith := some MuxErr.tooManyOpenStreams }
      else { st1 with rlTokens := st1.rlTokens - 1 }
    else
      if (regLookup st.receivers key).isSome then
        { st with destroyedWith := some MuxErr.streamAlreadyExists }
      else { st with receivers := st.receivers ++ [(key, mkStream false key)] }
  else
    match regLookup (targetRegistry st msg.type) key with
    | none => st
    | some s =>
      if msg.type = 2 ∨ msg.type = 1 then
        if cfg.maxStreamBufferSize < s.srl then
          let st1 := pushFrame st
            { id := msg.id, type := if msg.type = 2 then 5 else 6, data := none }
          setTarget st1 msg.type (regUpdate (targetRegistry st1 msg.type) key
            (fun s0 => { s0 with destroyedWith := some MuxErr.inputBufferFull }))
        else
          setTarget st msg.type (regUpdate (targetRegistry st msg.type) key
            (fun s0 => { s0 with pushed := s0.pushed ++ msg.data.getD [] }))
      else if msg.type = 4 ∨ msg.type = 3 then
        if s.sourceEnded then st
        else if s.sinkEnded then
          { setTarget st msg.type (regErase (targetRegistry st msg.type) key) with
              endedStreams := st.endedStreams ++ [streamCloseRead s] }
        else
          setTarget st msg.type (regUpdate (targetRegistry st msg.type) key streamCloseRead)
      else if msg.type = 5 ∨ msg.type = 6 then
        let s2 := streamReset s
        let st1 := { st with outFrames := st.outFrames ++ s2.2 }
        { setTarget st1 msg.type (regErase (targetRegistry st1 msg.type) key) with
            endedStreams := st1.endedStreams ++ [s2.1] }
      else st

/-- Sequential dispatch of a batch of decoded messages (`_write`). -/
def handleAll (cfg : MuxerConfig) (st : MuxerState) (msgs : List Message) : MuxerState :=
  msgs.foldl (handleIncoming cfg) st

/-- `close(err?)`: a no-op once the latch is set; otherwise destroy every
stream and latch closed (the registry entries linger until their `onEnd`). -/
def muxClose (st : MuxerState) : MuxerState :=
  if st.closed then st else { st with closed := true }

/-- A `NEW_STREAM` frame for id `i` as a remote peer would send it. -/
def newStreamMsg (i : Nat) : Message := { id := (i : Int), type := 0, data := some [] }

/-- One state transition of a muxer: a local `newStream` call, dispatch of
one inbound message, a `close`, or a registry removal performed by a
stream's own `onEnd` (reached from the write side, e.g. `closeWrite` after
`closeRead`). -/
inductive MuxStep (cfg : MuxerConfig) : MuxerState → MuxerState → Prop
  | newStreamStep (name : Option (List Nat)) (st : MuxerState) :
      MuxStep cfg st (newStream cfg name st).2
  | handleStep (msg : Message) (st : MuxerState) :
      MuxStep cfg st (handleIncoming cfg st msg)
  | closeStep (st : MuxerState) : MuxStep cfg st (muxClose st)
  | initiatorEndStep (i : Nat) (st : MuxerState) :
      MuxStep cfg st { st with initiators := regErase st.initiators i }
  | receiverEndStep (i : Nat) (st : MuxerState) :
      MuxStep cfg st { st with receivers := regErase st.receivers i }

/-- States a muxer can reach from construction. -/
def MuxReachable (cfg : MuxerConfig) (st : MuxerState) : Prop :=
  Relation.ReflTransGen (MuxStep cfg) (freshMuxer cfg) st

/-! ## The readable side of a stream (`src/stream.ts`)

The relevant source lines are the `Duplex` options
`read (size) { readableLength = size }` together with
`sourceReadableLength () { return readableLength }` and
`sourcePush (data) { [...data].forEach((chunk) => stream.push(chunk)) }`:
the `readableLength` variable starts at 0 and is overwritten only by the
`read` hook, with whatever size argument the runtime passes (the requested
read size / high-water mark — a quantity the stream never derives from its
buffered byte count). -/

/-- Observable state of a stream's readable side together with the byte
accounting the claim speaks about. -/
structure ReadSide where
  readableLength : Nat
  buffered : List Nat
  pushedTotal : Nat
  consumedTotal : Nat
deriving DecidableEq

/-- Events on the readable side: a `sourcePush` delivery, or an application
read that consumes `n` buffered bytes after which the runtime invokes the
`read` hook with the given `size` argument. -/
inductive ReadEvent
  | push (data : List Nat)
  | appRead (n size : Nat)

/-- Effect of one event, per the `read`/`sourcePush` handlers quoted above. -/
def applyEvent (s : ReadSide) : ReadEvent → ReadSide
  | .push data =>
      { s with buffered := s.buffered ++ data, pushedTotal := s.pushedTotal + data.length }
  | .appRead n size =>
      { s with buffered := s.buffered.drop n
               consumedTotal := s.consumedTotal + min n s.buffered.length
               readableLength := size }

/-- Run a stream's readable side from creation (`let readableLength = 0`,
empty buffer) through a sequence of events. -/
def runReads (evs : List ReadEvent) : ReadSide :=
  evs.foldl applyEvent { readableLength := 0, buffered := [], pushedTotal := 0, consumedTotal := 0 }

/-- `sourceReadableLength()` returns the `readableLength` variable. -/
def sourceReadableLength (s : ReadSide) : Nat := s.readableLength

/-! ## Small registry lemmas -/

theorem regLookup_append (a b : List (Nat × SStream)) (i : Nat) :
    regLookup (a ++ b) i = ((regLookup a i).rec (regLookup b i) (fun v => some v)) := by
  induction a with
  | nil => simp [regLookup]
  | cons p rest ih =>
    obtain ⟨k, v⟩ := p
    by_cases h : i = k <;> simp [regLookup, h, ih]

theorem regLookup_update_self (reg : List (Nat × SStream)) (i : Nat) (f : SStream → SStream)
    (s : SStream) (h : regLookup reg i = some s) :
    regLookup (regUpdate reg i f) i = some (f s) := by
  induction reg with
  | nil => simp [regLookup] at h
  | cons p rest ih =>
    obtain ⟨k, v⟩ := p
    by_cases hk : i = k
    · subst hk
      simp [regLookup] at h
      subst h
      simp [regUpdate, regLookup]
    · simp [regLookup, hk] at h
      simp [regUpdate, regLookup, hk, ih h]

theorem regUpdate_length (reg : List (Nat × SStream)) (i : Nat) (f : SStream → SStream) :
    (regUpdate reg i f).length = reg.length := by
  induction reg with
  | nil => rfl
  | cons p rest ih =>
    obtain ⟨k, v⟩ := p
    by_cases hk : i = k <;> simp [regUpdate, hk, ih]

theorem regUpdate_keys (reg : List (Nat × SStream)) (i : Nat) (f : SStream → SStream)
    (P : Nat → Prop) (h : ∀ p ∈ reg, P p.1) : ∀ q ∈ regUpdate reg i f, P q.1 := by
  induction reg with
  | nil => simp [regUpdate]
  | cons p rest ih =>
    obtain ⟨k, v⟩ := p
    intro q hq
    by_cases hk : i = k
    · simp [regUpdate, hk] at hq
      rcases hq with hq | hq
      · rw [hq]; exact h (k, v) (by simp)
      · exact h q (List.mem_cons_of_mem _ hq)
    · simp [regUpdate, hk] at hq
      rcases hq with hq | hq
      · rw [hq]; exact h (k, v) (by simp)
      · exact ih (fun p hp => h p (List.mem_cons_of_mem _ hp)) q hq

theorem regErase_length_le (reg : List (Nat × SStream)) (i : Nat) :
    (regErase reg i).length ≤ reg.length :=
  List.length_filter_le _ _

theorem regErase_keys (reg : List (Nat × SStream)) (i : Nat)
    (P : Nat → Prop) (h : ∀ p ∈ reg, P p.1) : ∀ q ∈ regErase reg i, P q.1 :=
  fun q hq => h q (List.mem_of_mem_filter hq)

theorem regLookup_of_keys_lt (reg : List (Nat × SStream)) (n : Nat)
    (h : ∀ p ∈ reg, p.1 < n) : regLookup reg n = none := by
  induction reg with
  | nil => rfl
  | cons p rest ih =>
    obtain ⟨k, v⟩ := p
    have hk : k < n := h (k, v) (by simp)
    have : ¬ n = k := by omega
    simp [regLookup, this]
    exact ih (fun p hp => h p (List.mem_cons_of_mem _ hp))

theorem targetRegistry_setTarget (st : MuxerState) (t : Nat) (reg : List (Nat × SStream)) :
    targetRegistry (setTarget st t reg) t = reg := by
  unfold targetRegistry setTarget
  by_cases h : t % 2 = 1 <;> simp [h]

theorem setTarget_outFrames (st : MuxerState) (t : Nat) (reg : List (Nat × SStream)) :
    (setTarget st t reg).outFrames = st.outFrames := by
  unfold setTarget
  by_cases h : t % 2 = 1 <;> simp [h]

theorem setTarget_endedStreams (st : MuxerState) (t : Nat) (reg : List (Nat × SStream)) :
    (setTarget st t reg).endedStreams = st.endedStreams := by
  unfold setTarget
  by_cases h : t % 2 = 1 <;> simp [h]

/-! ## Claim C2 -/

/-- Claim C2 (code bug): feeding the two-byte frame `0f 00` — header word
`1 << 3 | 7`, i.e. type 7 — to a fresh decoder makes `_decodeHeader` throw
the invalid-type error, but `Decoder.write` swallows it in its catch-all
`catch (_) { break }` and returns no messages with the malformed bytes still
buffered; a second write appends and stalls the same way.  The claim (and
the spec) say the InvalidType failure surfaces permanently from
`Decoder.write`; the code instead treats it exactly like a recoverable
short-input condition. -/
theorem decoder_swallows_invalid_type :
    decodeHeader [15, 0] = .error .invalidType ∧
    decoderWrite freshDecoder [15, 0] = ([], { buffer := [15, 0], headerInfo := none }) ∧
    decoderWrite { buffer := [15, 0], headerInfo := none } [99] =
      ([], { buffer := [15, 0, 99], headerInfo := none }) := by
  decide

/-! ## Claim C5 -/

/-- Claim C5 (code bug): `sourceReadableLength()` returns the variable that
only the Duplex `read(size)` hook assigns, so it does not track buffered
bytes.  After a single `sourcePush` of five bytes and no application read it
reports 0 although pushed-minus-consumed is 5; and when the runtime invokes
the read hook with its usual high-water-mark argument 16384, it reports
16384 — never 5. -/
theorem sourceReadableLength_not_buffer_size :
    sourceReadableLength (runReads [.push [1, 2, 3, 4, 5]]) = 0 ∧
    (runReads [.push [1, 2, 3, 4, 5]]).pushedTotal -
      (runReads [.push [1, 2, 3, 4, 5]]).consumedTotal = 5 ∧
    (runReads [.push [1, 2, 3, 4, 5]]).buffered.length = 5 ∧
    sourceReadableLength (runReads [.push [1, 2, 3, 4, 5], .appRead 0 16384]) = 16384 := by
  decide

/-! ## Claim C8 -/

/-- Claim C8: for dispatched inbound messages other than `NEW_STREAM` the
registry is selected by `type & 1` — the odd `_RECEIVER` family 1, 3, 5 is
looked up in the local initiators map and the even `_INITIATOR` family
2, 4, 6 in the local receivers map — and when the id is absent from the
selected registry the message is dropped with no state change at all. -/
theorem type_parity_routing (st : MuxerState) :
    (targetRegistry st 1 = st.initiators ∧ targetRegistry st 3 = st.initiators ∧
     targetRegistry st 5 = st.initiators ∧ targetRegistry st 2 = st.receivers ∧
     targetRegistry st 4 = st.receivers ∧ targetRegistry st 6 = st.receivers) ∧
    (∀ (cfg : MuxerConfig) (msg : Message), 1 ≤ msg.type → msg.type ≤ 6 →
      regLookup (targetRegistry st msg.type) msg.id.toNat = none →
      handleIncoming cfg st msg = st) := by
  constructor
  · refine ⟨rfl, rfl, rfl, ?_, ?_, ?_⟩ <;> simp [targetRegistry]
  · intro cfg msg h1 h6 hnone
    unfold handleIncoming
    have ht0 : ¬ msg.type = 0 := by omega
    simp only [ht0, if_false]
    rw [hnone]

/-- Claim C8 witness: a `MESSAGE_INITIATOR` for id 5 on a fresh muxer finds
no receiver stream and is dropped without any state change. -/
theorem type_parity_routing_witness :
    handleIncoming {} (freshMuxer {}) { id := 5, type := 2, data := some [1] } =
      freshMuxer {} :=
  (type_parity_routing (freshMuxer {})).2 {} { id := 5, type := 2, data := some [1] }
    (by decide) (by decide) (by decide)

/-! ## Claim C4 -/

/-- Claim C4: an inbound `MESSAGE_INITIATOR` (2) or `MESSAGE_RECEIVER` (1)
addressed to a registered stream either — when the stream's
`sourceReadableLength()` exceeds `maxStreamBufferSize` — makes the muxer
send a reset of the opposite directional suffix (2 ↦ `RESET_RECEIVER` (5),
1 ↦ `RESET_INITIATOR` (6)) and destroy the stream with `InputBufferFull`,
or otherwise pushes the message data into the stream via `sourcePush`
without emitting any frame. -/
theorem message_dispatch_buffer_overflow (cfg : MuxerConfig) (st : MuxerState)
    (msg : Message) (s : SStream) (ht : msg.type = 2 ∨ msg.type = 1)
    (hl : regLookup (targetRegistry st msg.type) msg.id.toNat = some s) :
    (cfg.maxStreamBufferSize < s.srl →
      (handleIncoming cfg st msg).outFrames =
        st.outFrames ++ [{ id := msg.id, type := if msg.type = 2 then 5 else 6, data := none }] ∧
      regLookup (targetRegistry (handleIncoming cfg st msg) msg.type) msg.id.toNat =
        some { s with destroyedWith := some MuxErr.inputBufferFull }) ∧
    (¬ cfg.maxStreamBufferSize < s.srl →
      (handleIncoming cfg st msg).outFrames = st.outFrames ∧
      regLookup (targetRegistry (handleIncoming cfg st msg) msg.type) msg.id.toNat =
        some { s with pushed := s.pushed ++ msg.data.getD [] }) := by
  have ht0 : ¬ msg.type = 0 := by rcases ht with h | h <;> omega
  unfold handleIncoming
  simp only [ht0, if_false, hl, ht, if_true]
  have hpush : ∀ f : Message, targetRegistry (pushFrame st f) msg.type = targetRegistry st msg.type := by
    intro f; simp [pushFrame, targetRegistry]
  constructor
  · intro hover
    simp only [if_pos hover]
    refine ⟨?_, ?_⟩
    · rw [setTarget_outFrames]
      simp [pushFrame]
    · rw [targetRegistry_setTarget, hpush]
      exact regLookup_update_self _ _ _ _ hl
  · intro hover
    simp only [if_neg hover]
    refine ⟨?_, ?_⟩
    · rw [setTarget_outFrames]
    · rw [targetRegistry_setTarget]
      exact regLookup_update_self _ _ _ _ hl

/-- Claim C4 witness: with `maxStreamBufferSize = 0` and a registered
receiver stream whose readable length reads 1, an inbound
`MESSAGE_INITIATOR` for id 0 makes the muxer emit `RESET_RECEIVER` for id 0
and mark the stream destroyed with `InputBufferFull`. -/
theorem message_dispatch_buffer_overflow_witness :
    (handleIncoming { maxStreamBufferSize := 0 }
        { freshMuxer {} with receivers := [(0, { mkStream false 0 with srl := 1 })] }
        { id := 0, type := 2, data := some [7] }).outFrames =
      [{ id := 0, type := 5, data := none }] ∧
    regLookup (targetRegistry (handleIncoming { maxStreamBufferSize := 0 }
        { freshMuxer {} with receivers := [(0, { mkStream false 0 with srl := 1 })] }
        { id := 0, type := 2, data := some [7] }) 2) 0 =
      some { mkStream false 0 with srl := 1, destroyedWith := some MuxErr.inputBufferFull } := by
  have h := (message_dispatch_buffer_overflow { maxStreamBufferSize := 0 }
    { freshMuxer {} with receivers := [(0, { mkStream false 0 with srl := 1 })] }
    { id := 0, type := 2, data := some [7] } { mkStream false 0 with srl := 1 }
    (Or.inl rfl) (by decide)).1 (by decide)
  exact ⟨h.1, h.2⟩

/-! ## Claim C9 -/

theorem streamReset_ends_both (s : SStream) :
    (streamReset s).1.sourceEnded = true ∧ (streamReset s).1.sinkEnded = true := by
  unfold streamReset onSourceEnd onSinkEnd
  by_cases h1 : s.sourceEnded <;> by_cases h2 : s.sinkEnded <;> simp [h1, h2]

theorem streamReset_endErr (s : SStream) (h : s.endErr = none)
    (hn : ¬ (s.sourceEnded = true ∧ s.sinkEnded = true)) :
    (streamReset s).1.endErr = some MuxErr.streamReset := by
  unfold streamReset onSourceEnd onSinkEnd
  by_cases h1 : s.sourceEnded <;> by_cases h2 : s.sinkEnded <;> simp_all

/-- Claim C9: a local `reset()` hands no frame whatsoever to `send`, yet
ends both halves — with the `StreamReset` error whenever the stream was
still live and error-free; and an inbound remote `RESET_*` for a registered
stream applies exactly that `reset` to the local stream (ending both local
halves with `StreamReset`), emits nothing to the peer, and retires the
stream from its registry. -/
theorem reset_asymmetry (cfg : MuxerConfig) (st : MuxerState) (msg : Message) (s : SStream)
    (ht : msg.type = 5 ∨ msg.type = 6)
    (hl : regLookup (targetRegistry st msg.type) msg.id.toNat = some s) :
    (streamReset s).2 = [] ∧
    (streamReset s).1.sourceEnded = true ∧ (streamReset s).1.sinkEnded = true ∧
    (s.endErr = none → ¬ (s.sourceEnded = true ∧ s.sinkEnded = true) →
      (streamReset s).1.endErr = some MuxErr.streamReset) ∧
    (handleIncoming cfg st msg).outFrames = st.outFrames ∧
    (handleIncoming cfg st msg).endedStreams = st.endedStreams ++ [(streamReset s).1] ∧
    targetRegistry (handleIncoming cfg st msg) msg.type =
      regErase (targetRegistry st msg.type) msg.id.toNat := by
  have ht0 : ¬ msg.type = 0 := by rcases ht with h | h <;> omega
  have ht21 : ¬ (msg.type = 2 ∨ msg.type = 1) := by rcases ht with h | h <;> omega
  have ht43 : ¬ (msg.type = 4 ∨ msg.type = 3) := by rcases ht with h | h <;> omega
  refine ⟨rfl, (streamReset_ends_both s).1, (streamReset_ends_both s).2,
    streamReset_endErr s, ?_, ?_, ?_⟩ <;>
      (unfold handleIncoming; simp only [ht0, if_false, hl, ht21, ht43, ht, if_true]) <;>
      (by_cases hp : msg.type % 2 = 1 <;>
        simp [targetRegistry, setTarget, hp, streamReset])
/-- Claim C9 witness: a remote `RESET_INITIATOR` (6) for the registered
receiver stream 0 emits no frame, removes the stream, and the reset stream
has both halves ended with `StreamReset`. -/
theorem reset_asymmetry_witness :
    (streamReset (mkStream false 0)).2 = [] ∧
    (handleIncoming {} { freshMuxer {} with receivers := [(0, mkStream false 0)] }
        { id := 0, type := 6, data := none }).outFrames = [] ∧
    (streamReset (mkStream false 0)).1.endErr = some MuxErr.streamReset := by
  have h := reset_asymmetry {} { freshMuxer {} with receivers := [(0, mkStream false 0)] }
    { id := 0, type := 6, data := none } (mkStream false 0) (Or.inr rfl) (by decide)
  exact ⟨h.1, h.2.2.2.2.1, h.2.2.2.1 (by decide) (by decide)⟩

/-! ## Claim C6 -/

theorem regLookup_append_none (a b : List (Nat × SStream)) (i : Nat)
    (h : regLookup a i = none) : regLookup (a ++ b) i = regLookup b i := by
  induction a with
  | nil => rfl
  | cons p rest ih =>
    obtain ⟨k, v⟩ := p
    by_cases hk : i = k
    · simp [regLookup, hk] at h
    · simp [regLookup, hk] at h ⊢
      exact ih h

/-- Receiver registry holding the streams registered for ids `0..n-1`. -/
def regOfRange (n : Nat) : List (Nat × SStream) :=
  (List.range n).map (fun i => (i, mkStream false i))

theorem regOfRange_succ (n : Nat) :
    regOfRange (n + 1) = regOfRange n ++ [(n, mkStream false n)] := by
  simp [regOfRange, List.range_succ]

theorem regOfRange_length (n : Nat) : (regOfRange n).length = n := by
  simp [regOfRange]

theorem regOfRange_lookup_ge (n i : Nat) (h : n ≤ i) : regLookup (regOfRange n) i = none := by
  induction n with
  | zero => rfl
  | succ n ih =>
    rw [regOfRange_succ, regLookup_append_none _ _ _ (ih (by omega))]
    have : ¬ i = n := by omega
    simp [regLookup, this]

/-- A muxer that has registered the inbound streams `0..n-1` and done
nothing else. -/
def muxAtCap (cfg : MuxerConfig) (n : Nat) : MuxerState :=
  { freshMuxer cfg with receivers := regOfRange n }

theorem handle_new_under_cap (cfg : MuxerConfig) (n : Nat) (h : n < cfg.maxInboundStreams) :
    handleIncoming cfg (muxAtCap cfg n) (newStreamMsg n) = muxAtCap cfg (n + 1) := by
  have hne : ¬ (regOfRange n).length = cfg.maxInboundStreams := by
    rw [regOfRange_length]; omega
  have hnone : regLookup (regOfRange n) n = none := regOfRange_lookup_ge n n (le_refl n)
  simp [handleIncoming, newStreamMsg, hne, muxAtCap, hnone, regOfRange_succ]

theorem feed_under_cap (cfg : MuxerConfig) :
    ∀ (k n : Nat), n + k ≤ cfg.maxInboundStreams →
      handleAll cfg (muxAtCap cfg n) ((List.range' n k).map newStreamMsg) = muxAtCap cfg (n + k) := by
  intro k
  induction k with
  | zero => intro n _; simp [handleAll]
  | succ k ih =>
    intro n h
    rw [List.range'_succ]
    have hstep := handle_new_under_cap cfg n (by omega)
    have : handleAll cfg (muxAtCap cfg n) ((n :: List.range' (n + 1) k).map newStreamMsg) =
        handleAll cfg (muxAtCap cfg (n + 1)) ((List.range' (n + 1) k).map newStreamMsg) := by
      simp [handleAll, hstep]
    rw [this, ih (n + 1) (by omega)]
    congr 1
    omega

theorem overcap_burst (cfg : MuxerConfig) :
    ∀ (ids : List Nat) (j : Nat) (st : MuxerState),
      st.receivers.length = cfg.maxInboundStreams → st.rlTokens = ids.length →
      (handleAll cfg st ((ids ++ [j]).map newStreamMsg)).destroyedWith =
        some MuxErr.tooManyOpenStreams := by
  intro ids
  induction ids with
  | nil =>
    intro j st hcap hrl
    simp [handleAll, handleIncoming, newStreamMsg, hcap, pushFrame, hrl]
  | cons i ids ih =>
    intro j st hcap hrl
    have hne : ¬ st.rlTokens = 0 := by rw [hrl]; simp
    have hstep : handleIncoming cfg st (newStreamMsg i) =
        { pushFrame st { id := (i : Int), type := 5, data := none } with
            rlTokens := st.rlTokens - 1 } := by
      simp [handleIncoming, newStreamMsg, hcap, pushFrame, hne]
    have : handleAll cfg st (((i :: ids) ++ [j]).map newStreamMsg) =
        handleAll cfg ({ pushFrame st { id := (i : Int), type := 5, data := none } with
            rlTokens := st.rlTokens - 1 }) ((ids ++ [j]).map newStreamMsg) := by
      simp [handleAll, hstep]
    rw [this]
    exact ih j _ (by simp [pushFrame, hcap]) (by simp [pushFrame, hrl])

/-- Claim C6: a `NEW_STREAM` arriving while the receivers map is exactly at
`maxInboundStreams` makes the muxer send `RESET_RECEIVER` for that id
without registering anything, and consume one token of the rate limiter
(capacity `disconnectThreshold`): while tokens remain the token count
drops by one, and the first over-cap `NEW_STREAM` the limiter rejects
destroys the whole muxer with `TooManyOpenStreams`.  Consequently feeding a
fresh muxer `maxInboundStreams + disconnectThreshold + 1` `NEW_STREAM`
frames within one second leaves it destroyed with `TooManyOpenStreams`. -/
theorem inbound_cap_rate_limit (cfg : MuxerConfig) :
    (∀ (st : MuxerState) (msg : Message), msg.type = 0 →
      st.receivers.length = cfg.maxInboundStreams →
      handleIncoming cfg st msg =
        (if st.rlTokens = 0 then
          { pushFrame st { id := msg.id, type := 5, data := none } with
              destroyedWith := some MuxErr.tooManyOpenStreams }
         else
          { pushFrame st { id := msg.id, type := 5, data := none } with
              rlTokens := st.rlTokens - 1 })) ∧
    (handleAll cfg (freshMuxer cfg)
        ((List.range (cfg.maxInboundStreams + cfg.disconnectThreshold + 1)).map
          newStreamMsg)).destroyedWith = some MuxErr.tooManyOpenStreams := by
  constructor
  · intro st msg ht hcap
    by_cases h0 : st.rlTokens = 0 <;> simp [handleIncoming, ht, hcap, pushFrame, h0]
  · rw [List.range_eq_range']
    have hsplit : List.range' 0 (cfg.maxInboundStreams + cfg.disconnectThreshold + 1) =
        List.range' 0 cfg.maxInboundStreams ++
          (List.range' cfg.maxInboundStreams cfg.disconnectThreshold ++
            [cfg.maxInboundStreams + cfg.disconnectThreshold]) := by
      have h1 := List.range'_append 0 cfg.maxInboundStreams (cfg.disconnectThreshold + 1) 1
      have h2 := @List.range'_concat 1 cfg.maxInboundStreams cfg.disconnectThreshold
      rw [show cfg.maxInboundStreams + cfg.disconnectThreshold + 1 =
          cfg.disconnectThreshold + 1 + cfg.maxInboundStreams by omega]
      rw [← h1]
      simp at h2 ⊢
      rw [h2]
    rw [hsplit]
    rw [List.map_append, handleAll]
    rw [List.foldl_append]
    have hfresh : freshMuxer cfg = muxAtCap cfg 0 := rfl
    rw [hfresh]
    have hphase1 := feed_under_cap cfg cfg.maxInboundStreams 0 (by omega)
    rw [show List.foldl (handleIncoming cfg) (muxAtCap cfg 0)
          ((List.range' 0 cfg.maxInboundStreams).map newStreamMsg) =
        handleAll cfg (muxAtCap cfg 0) ((List.range' 0 cfg.maxInboundStreams).map newStreamMsg)
        from rfl, hphase1]
    exact overcap_burst cfg (List.range' cfg.maxInboundStreams cfg.disconnectThreshold)
      (cfg.maxInboundStreams + cfg.disconnectThreshold)
      (muxAtCap cfg (0 + cfg.maxInboundStreams))
      (by simp [muxAtCap, regOfRange_length])
      (by simp [muxAtCap, freshMuxer])

/-- Claim C6 witness: with `maxInboundStreams = 0` and
`disconnectThreshold = 1`, an over-cap `NEW_STREAM` on a fresh muxer answers
with `RESET_RECEIVER` and consumes the single token, and two `NEW_STREAM`
frames destroy the muxer with `TooManyOpenStreams`. -/
theorem inbound_cap_rate_limit_witness :
    (handleIncoming { maxInboundStreams := 0, disconnectThreshold := 1 }
        (freshMuxer { maxInboundStreams := 0, disconnectThreshold := 1 }) (newStreamMsg 0) =
      (if (freshMuxer { maxInboundStreams := 0, disconnectThreshold := 1 }).rlTokens = 0 then
        { pushFrame (freshMuxer { maxInboundStreams := 0, disconnectThreshold := 1 })
            { id := (newStreamMsg 0).id, type := 5, data := none } with
            destroyedWith := some MuxErr.tooManyOpenStreams }
       else
        { pushFrame (freshMuxer { maxInboundStreams := 0, disconnectThreshold := 1 })
            { id := (newStreamMsg 0).id, type := 5, data := none } with
            rlTokens := (freshMuxer { maxInboundStreams := 0, disconnectThreshold := 1 }).rlTokens - 1 })) ∧
    (handleAll { maxInboundStreams := 0, disconnectThreshold := 1 }
        (freshMuxer { maxInboundStreams := 0, disconnectThreshold := 1 })
        ((List.range 2).map newStreamMsg)).destroyedWith = some MuxErr.tooManyOpenStreams :=
  ⟨(inbound_cap_rate_limit { maxInboundStreams := 0, disconnectThreshold := 1 }).1
      (freshMuxer { maxInboundStreams := 0, disconnectThreshold := 1 }) (newStreamMsg 0) rfl rfl,
   (inbound_cap_rate_limit { maxInboundStreams := 0, disconnectThreshold := 1 }).2⟩

/-! ## Claim C7 -/

theorem handleIncoming_streamId (cfg : MuxerConfig) (st : MuxerState) (msg : Message) :
    (handleIncoming cfg st msg).streamId = st.streamId := by
  unfold handleIncoming
  by_cases h0 : msg.type = 0
  · simp only [h0, if_true]
    split_ifs <;> simp [pushFrame]
  · simp only [h0, if_false]
    cases hm : regLookup (targetRegistry st msg.type) msg.id.toNat with
    | none => rfl
    | some s =>
      by_cases hp : msg.type % 2 = 1 <;>
        (simp only []; split_ifs <;> simp [setTarget, hp, pushFrame])

theorem handleIncoming_initiators_cases (cfg : MuxerConfig) (st : MuxerState) (msg : Message) :
    (handleIncoming cfg st msg).initiators = st.initiators ∨
    (∃ f, (handleIncoming cfg st msg).initiators = regUpdate st.initiators msg.id.toNat f) ∨
    (handleIncoming cfg st msg).initiators = regErase st.initiators msg.id.toNat := by
  unfold handleIncoming
  by_cases h0 : msg.type = 0
  · simp only [h0, if_true]
    split_ifs <;> simp [pushFrame]
  · simp only [h0, if_false]
    cases hm : regLookup (targetRegistry st msg.type) msg.id.toNat with
    | none => simp
    | some s =>
      dsimp only
      by_cases hp : msg.type % 2 = 1
      · split_ifs
        · exact Or.inr (Or.inl ⟨fun s0 => { s0 with destroyedWith := some MuxErr.inputBufferFull },
            by simp [setTarget, hp, targetRegistry, pushFrame]⟩)
        · exact Or.inr (Or.inl ⟨fun s0 => { s0 with destroyedWith := some MuxErr.inputBufferFull },
            by simp [setTarget, hp, targetRegistry, pushFrame]⟩)
        · exact Or.inr (Or.inl ⟨fun s0 => { s0 with pushed := s0.pushed ++ msg.data.getD [] },
            by simp [setTarget, hp, targetRegistry]⟩)
        · exact Or.inl rfl
        · exact Or.inr (Or.inr (by simp [setTarget, hp, targetRegistry]))
        · exact Or.inr (Or.inl ⟨streamCloseRead, by simp [setTarget, hp, targetRegistry]⟩)
        · exact Or.inr (Or.inr (by simp [setTarget, hp, targetRegistry]))
        · exact Or.inl rfl
      · split_ifs <;> (left; simp [setTarget, hp, targetRegistry, pushFrame])

/-- Invariant maintained by every muxer operation: the initiators map never
exceeds `maxOutboundStreams`, and every registered initiator id is below
the next-id counter. -/
def MuxInv (cfg : MuxerConfig) (st : MuxerState) : Prop :=
  st.initiators.length ≤ cfg.maxOutboundStreams ∧ ∀ p ∈ st.initiators, p.1 < st.streamId

theorem mux_inv_step (cfg : MuxerConfig) (st st' : MuxerState)
    (hinv : MuxInv cfg st) (hstep : MuxStep cfg st st') : MuxInv cfg st' := by
  obtain ⟨hlen, hkeys⟩ := hinv
  cases hstep with
  | newStreamStep name st =>
    unfold newStream
    dsimp only
    split_ifs with hc hcap hdup
    · exact ⟨hlen, hkeys⟩
    · exact ⟨hlen, fun p hp => Nat.lt_succ_of_lt (hkeys p hp)⟩
    · exact ⟨hlen, fun p hp => Nat.lt_succ_of_lt (hkeys p hp)⟩
    · constructor
      · show (st.initiators ++ [(st.streamId, mkStream true st.streamId)]).length ≤
          cfg.maxOutboundStreams
        rw [List.length_append]
        simp only [List.length_cons, List.length_nil]
        omega
      · intro p hp
        show p.1 < st.streamId + 1
        have hp2 : p ∈ st.initiators ++ [(st.streamId, mkStream true st.streamId)] := hp
        rcases List.mem_append.1 hp2 with h | h
        · exact Nat.lt_succ_of_lt (hkeys p h)
        · have := List.mem_singleton.1 h
          subst this
          exact Nat.lt_succ_self _
  | handleStep msg st =>
    have hsid := handleIncoming_streamId cfg st msg
    rcases handleIncoming_initiators_cases cfg st msg with h | ⟨f, h⟩ | h
    · exact ⟨by rw [h]; exact hlen, fun p hp => by rw [hsid]; exact hkeys p (h ▸ hp)⟩
    · constructor
      · rw [h, regUpdate_length]; exact hlen
      · intro p hp
        rw [hsid]
        exact regUpdate_keys st.initiators msg.id.toNat f (fun k => k < st.streamId)
          hkeys p (h ▸ hp)
    · constructor
      · rw [h]; exact le_trans (regErase_length_le _ _) hlen
      · intro p hp
        rw [hsid]
        exact regErase_keys st.initiators msg.id.toNat (fun k => k < st.streamId)
          hkeys p (h ▸ hp)
  | closeStep st =>
    unfold muxClose
    split_ifs <;> exact ⟨hlen, hkeys⟩
  | initiatorEndStep i st =>
    exact ⟨le_trans (regErase_length_le _ _) hlen,
      fun p hp => regErase_keys st.initiators i (fun k => k < st.streamId) hkeys p hp⟩
  | receiverEndStep i st =>
    exact ⟨hlen, hkeys⟩

theorem mux_inv_reachable (cfg : MuxerConfig) (st : MuxerState)
    (h : MuxReachable cfg st) : MuxInv cfg st := by
  induction h with
  | refl => exact ⟨by simp [freshMuxer], by simp [freshMuxer]⟩
  | tail _ step ih => exact mux_inv_step cfg _ _ ih step

/-- Claim C7: on any reachable muxer state, `newStream` fails with
`MuxerClosed` when the close latch is set; otherwise it fails with
`TooManyOutboundStreams` whenever the initiators map has reached
`maxOutboundStreams` (the code compares with strict equality, but reachable
states never exceed the cap, so at-least-cap and exactly-at-cap coincide);
and otherwise it assigns the next initiator id, registers an initiator
stream under it, and returns it. -/
theorem new_stream_preconditions (cfg : MuxerConfig) (name : Option (List Nat))
    (st : MuxerState) (hr : MuxReachable cfg st) :
    (st.closed = true → (newStream cfg name st).1 = .error .muxerClosed) ∧
    (st.closed = false → cfg.maxOutboundStreams ≤ st.initiators.length →
      (newStream cfg name st).1 = .error .tooManyOutboundStreams) ∧
    (st.closed = false → st.initiators.length < cfg.maxOutboundStreams →
      (newStream cfg name st).1 = .ok st.streamId ∧
      (newStream cfg name st).2.initiators =
        st.initiators ++ [(st.streamId, mkStream true st.streamId)] ∧
      (newStream cfg name st).2.streamId = st.streamId + 1) := by
  obtain ⟨hlen, hkeys⟩ := mux_inv_reachable cfg st hr
  refine ⟨?_, ?_, ?_⟩
  · intro hc; simp [newStream, hc]
  · intro hc hge
    have hcap : st.initiators.length = cfg.maxOutboundStreams := by omega
    simp [newStream, hc, hcap]
  · intro hc hlt
    have hcap : ¬ st.initiators.length = cfg.maxOutboundStreams := by omega
    have hnone : regLookup st.initiators st.streamId = none :=
      regLookup_of_keys_lt st.initiators st.streamId hkeys
    simp [newStream, hc, hcap, hnone, pushFrame]

/-- Claim C7 witness: on a freshly constructed muxer with the default
configuration, `newStream` succeeds, returns id 0, registers the initiator
stream, and advances the counter to 1. -/
theorem new_stream_preconditions_witness :
    (newStream {} none (freshMuxer {})).1 = .ok 0 ∧
    (newStream {} none (freshMuxer {})).2.initiators = [(0, mkStream true 0)] ∧
    (newStream {} none (freshMuxer {})).2.streamId = 1 := by
  have h := (new_stream_preconditions {} none (freshMuxer {})
    Relation.ReflTransGen.refl).2.2 rfl (by decide)
  exact ⟨h.1, h.2.1, h.2.2⟩

/-! ## Claim C10 -/

/-- Iterated `newStream` attempts, keeping only the state. -/
def newStreamIter (cfg : MuxerConfig) (name : Option (List Nat)) : Nat → MuxerState → MuxerState
  | 0, st => st
  | k + 1, st => newStreamIter cfg name k (newStream cfg name st).2

theorem newStream_at_cap (cfg : MuxerConfig) (name : Option (List Nat)) (st : MuxerState)
    (ho : st.closed = false) (hc : st.initiators.length = cfg.maxOutboundStreams) :
    newStream cfg name st =
      (.error .tooManyOutboundStreams, { st with streamId := st.streamId + 1 }) := by
  simp [newStream, ho, hc]

theorem newStreamIter_at_cap (cfg : MuxerConfig) (name : Option (List Nat)) (k : Nat) :
    ∀ st : MuxerState, st.closed = false →
      st.initiators.length = cfg.maxOutboundStreams →
      newStreamIter cfg name k st = { st with streamId := st.streamId + k } := by
  induction k with
  | zero => intro st _ _; rfl
  | succ k ih =>
    intro st ho hc
    show newStreamIter cfg name k (newStream cfg name st).2 = _
    rw [newStream_at_cap cfg name st ho hc]
    rw [ih { st with streamId := st.streamId + 1 } ho hc]
    have : st.streamId + 1 + k = st.streamId + (k + 1) := by omega
    rw [this]

/-- Claim C10 (implicit): `newStream` advances the next-initiator-id counter
before the outbound-cap check, so a call that fails with
`TooManyOutboundStreams` on an open muxer at the cap still increments the
counter — `k` such failed attempts leave the state unchanged except for the
counter growing by `k` — and once capacity frees, the next successful
`newStream` returns an id larger by the number of intervening failures; ids
are taken from the strictly increasing counter and never reused. -/
theorem failed_new_stream_increments_counter (cfg : MuxerConfig) (name : Option (List Nat))
    (st : MuxerState) (k : Nat) (ho : st.closed = false)
    (hc : st.initiators.length = cfg.maxOutboundStreams) :
    (newStream cfg name st =
      (.error .tooManyOutboundStreams, { st with streamId := st.streamId + 1 })) ∧
    (newStreamIter cfg name k st = { st with streamId := st.streamId + k }) ∧
    (∀ reg2 : List (Nat × SStream), ¬ reg2.length = cfg.maxOutboundStreams →
      regLookup reg2 (st.streamId + k) = none →
      (newStream cfg name { newStreamIter cfg name k st with initiators := reg2 }).1 =
        .ok (st.streamId + k)) := by
  refine ⟨newStream_at_cap cfg name st ho hc,
    newStreamIter_at_cap cfg name k st ho hc, ?_⟩
  intro reg2 hcap2 hfresh
  rw [newStreamIter_at_cap cfg name k st ho hc]
  simp [newStream, ho, hcap2, hfresh, pushFrame]

/-- Claim C10 witness: with `maxOutboundStreams = 0` a fresh muxer is
already at the cap; one `newStream` fails with `TooManyOutboundStreams` yet
moves the counter to 1, two failed attempts move it to 2, and a success
from a state whose registry is off the cap returns id 2. -/
theorem failed_new_stream_increments_counter_witness :
    (newStream { maxOutboundStreams := 0 } none (freshMuxer { maxOutboundStreams := 0 }) =
      (.error .tooManyOutboundStreams,
        { freshMuxer { maxOutboundStreams := 0 } with streamId := 1 })) ∧
    (newStreamIter { maxOutboundStreams := 0 } none 2 (freshMuxer { maxOutboundStreams := 0 }) =
      { freshMuxer { maxOutboundStreams := 0 } with streamId := 2 }) ∧
    (newStream { maxOutboundStreams := 0 } none
        { newStreamIter { maxOutboundStreams := 0 } none 2 (freshMuxer { maxOutboundStreams := 0 }) with
            initiators := [(5, mkStream true 5)] }).1 = .ok 2 := by
  have h := failed_new_stream_increments_counter { maxOutboundStreams := 0 } none
    (freshMuxer { maxOutboundStreams := 0 }) 2 rfl rfl
  exact ⟨h.1, h.2.1, h.2.2 [(5, mkStream true 5)] (by decide) (by decide)⟩

/-! ## Claim C3 -/

theorem fragmentsGo_flatten (M : Nat) (hM : 1 ≤ M) :
    ∀ (fuel : Nat) (buf : List Nat), buf.length ≤ fuel →
      (fragmentsGo M fuel buf).flatten = buf := by
  intro fuel
  induction fuel with
  | zero =>
    intro buf h
    have : buf = [] := List.eq_nil_of_length_eq_zero (by omega)
    subst this
    rfl
  | succ fuel ih =>
    intro buf h
    by_cases h0 : buf.length = 0
    · have : buf = [] := List.eq_nil_of_length_eq_zero h0
      subst this
      rfl
    · by_cases hle : buf.length ≤ M
      · simp [fragmentsGo, h0, hle]
      · simp only [fragmentsGo, h0, if_false, hle, List.flatten_cons]
        rw [ih (buf.drop M) (by rw [List.length_drop]; omega)]
        exact List.take_append_drop M buf

theorem fragmentsGo_length (M : Nat) (hM : 1 ≤ M) :
    ∀ (fuel : Nat) (buf : List Nat), buf.length ≤ fuel →
      (fragmentsGo M fuel buf).length = (buf.length + M - 1) / M := by
  intro fuel
  induction fuel with
  | zero =>
    intro buf h
    have hb : buf = [] := List.eq_nil_of_length_eq_zero (by omega)
    subst hb
    show 0 = (0 + M - 1) / M
    rw [Nat.div_eq_of_lt (by omega)]
  | succ fuel ih =>
    intro buf h
    by_cases h0 : buf.length = 0
    · have hb : buf = [] := List.eq_nil_of_length_eq_zero h0
      subst hb
      show 0 = (0 + M - 1) / M
      rw [Nat.div_eq_of_lt (by omega)]
    · by_cases hle : buf.length ≤ M
      · simp only [fragmentsGo, h0, if_false, hle, if_true, List.length_cons, List.length_nil]
        have e1 : buf.length + M - 1 = (buf.length - 1) + M := by omega
        rw [e1, Nat.add_div_right _ (by omega), Nat.div_eq_of_lt (by omega)]
      · simp only [fragmentsGo, h0, if_false, hle, List.length_cons]
        rw [ih (buf.drop M) (by rw [List.length_drop]; omega), List.length_drop]
        have e2 : buf.length + M - 1 = (buf.length - 1) + M := by omega
        rw [e2, Nat.add_div_right _ (by omega)]
        rw [Nat.div_eq_sub_div (by omega) (show M ≤ buf.length - 1 by omega)]
        have e3 : buf.length - M + M - 1 = (buf.length - 1 - M) + M := by omega
        rw [e3, Nat.add_div_right _ (by omega)]

theorem fragmentsGo_mem_le (M : Nat) (hM : 1 ≤ M) :
    ∀ (fuel : Nat) (buf c : List Nat), buf.length ≤ fuel →
      c ∈ fragmentsGo M fuel buf → c.length ≤ M := by
  intro fuel
  induction fuel with
  | zero => intro buf c _ hc; simp [fragmentsGo] at hc
  | succ fuel ih =>
    intro buf c h hc
    by_cases h0 : buf.length = 0
    · simp [fragmentsGo, h0] at hc
    · by_cases hle : buf.length ≤ M
      · simp [fragmentsGo, h0, hle] at hc
        subst hc
        exact hle
      · simp only [fragmentsGo, h0, if_false, hle, List.mem_cons] at hc
        rcases hc with hc | hc
        · subst hc
          rw [List.length_take]
          omega
        · exact ih (buf.drop M) c (by rw [List.length_drop]; omega) hc

theorem fragmentsGo_ne_nil (M : Nat) (_hM : 1 ≤ M) :
    ∀ (fuel : Nat) (buf : List Nat), buf.length ≤ fuel → buf ≠ [] →
      fragmentsGo M fuel buf ≠ [] := by
  intro fuel
  induction fuel with
  | zero =>
    intro buf h hne
    have : buf = [] := List.eq_nil_of_length_eq_zero (by omega)
    exact absurd this hne
  | succ fuel _ =>
    intro buf h hne
    have h0 : ¬ buf.length = 0 := fun hl => hne (List.eq_nil_of_length_eq_zero hl)
    by_cases hle : buf.length ≤ M <;> simp [fragmentsGo, h0, hle]

theorem fragmentsGo_dropLast (M : Nat) (hM : 1 ≤ M) :
    ∀ (fuel : Nat) (buf c : List Nat), buf.length ≤ fuel →
      c ∈ (fragmentsGo M fuel buf).dropLast → c.length = M := by
  intro fuel
  induction fuel with
  | zero => intro buf c _ hc; simp [fragmentsGo] at hc
  | succ fuel ih =>
    intro buf c h hc
    by_cases h0 : buf.length = 0
    · simp [fragmentsGo, h0] at hc
    · by_cases hle : buf.length ≤ M
      · simp [fragmentsGo, h0, hle] at hc
      · simp only [fragmentsGo, h0, if_false, hle] at hc
        have hdrop : (buf.drop M).length ≤ fuel := by rw [List.length_drop]; omega
        have hne : fragmentsGo M fuel (buf.drop M) ≠ [] := by
          apply fragmentsGo_ne_nil M hM fuel (buf.drop M) hdrop
          intro hnil
          have := congrArg List.length hnil
          rw [List.length_drop] at this
          simp at this
          omega
        cases hrec : fragmentsGo M fuel (buf.drop M) with
        | nil => exact absurd hrec hne
        | cons b rest =>
          rw [hrec] at hc
          rw [show (buf.take M :: b :: rest).dropLast = buf.take M :: (b :: rest).dropLast
            by simp] at hc
          rcases List.mem_cons.1 hc with hc | hc
          · subst hc
            rw [List.length_take]
            omega
          · exact ih (buf.drop M) c hdrop (by rw [hrec]; exact hc)

/-- Claim C3: a single `stream.write` of `N` bytes with an empty pending
list and fragmentation ceiling `M ≥ 1` sends exactly `⌈N / M⌉` `MESSAGE_*`
frames, in order, each carrying the stream id and the role's `MESSAGE_*`
type, each payload at most `M` bytes, every payload except the last exactly
`M` bytes, and the concatenation of the payloads equal to the written
bytes. -/
theorem stream_write_fragmentation (M sid : Nat) (isInit : Bool) (data : List Nat)
    (hM : 1 ≤ M) :
    (streamWriteFrames M sid isInit [] data).length = (data.length + M - 1) / M ∧
    ((streamWriteFrames M sid isInit [] data).map (fun f => f.data.getD [])).flatten = data ∧
    (∀ f ∈ streamWriteFrames M sid isInit [] data,
      f.id = (sid : Int) ∧ f.type = messageTypeOf isInit ∧ (f.data.getD []).length ≤ M) ∧
    (∀ f ∈ (streamWriteFrames M sid isInit [] data).dropLast,
      (f.data.getD []).length = M) := by
  have hbase : streamWriteFrames M sid isInit [] data =
      (fragments M data).map
        (fun c => { id := (sid : Int), type := messageTypeOf isInit, data := some c }) := by
    simp [streamWriteFrames]
  refine ⟨?_, ?_, ?_, ?_⟩
  · rw [hbase, List.length_map]
    exact fragmentsGo_length M hM data.length data (le_refl _)
  · rw [hbase, List.map_map]
    have : ((fun (f : Message) => f.data.getD []) ∘
        (fun c => ({ id := (sid : Int), type := messageTypeOf isInit, data := some c } : Message))) =
        id := by
      funext c
      rfl
    rw [this, List.map_id]
    exact fragmentsGo_flatten M hM data.length data (le_refl _)
  · intro f hf
    rw [hbase] at hf
    rcases List.mem_map.1 hf with ⟨c, hc, rfl⟩
    exact ⟨rfl, rfl, fragmentsGo_mem_le M hM data.length data c (le_refl _) hc⟩
  · intro f hf
    rw [hbase, ← List.map_dropLast] at hf
    rcases List.mem_map.1 hf with ⟨c, hc, rfl⟩
    exact fragmentsGo_dropLast M hM data.length data c (le_refl _) hc

/-- Claim C3 witness: writing the five bytes `[1, 2, 3, 4, 5]` with
`maxMsgSize = 2` on initiator stream 9 yields three frames of payload
sizes 2, 2, 1 concatenating to the original bytes. -/
theorem stream_write_fragmentation_witness :
    (streamWriteFrames 2 9 true [] [1, 2, 3, 4, 5]).length = 3 ∧
    ((streamWriteFrames 2 9 true [] [1, 2, 3, 4, 5]).map
      (fun f => f.data.getD [])).flatten = [1, 2, 3, 4, 5] ∧
    (∀ f ∈ streamWriteFrames 2 9 true [] [1, 2, 3, 4, 5],
      f.id = (9 : Int) ∧ f.type = messageTypeOf true ∧ (f.data.getD []).length ≤ 2) := by
  have h := stream_write_fragmentation 2 9 true [1, 2, 3, 4, 5] (by decide)
  exact ⟨h.1, h.2.1, h.2.2.1⟩

/-! ## Claim C1 -/

theorem leb128Go_irrel : ∀ (n f1 f2 : Nat), n < f1 → n < f2 → leb128Go f1 n = leb128Go f2 n := by
  intro n
  induction n using Nat.strong_induction_on with
  | _ n ih =>
    intro f1 f2 h1 h2
    cases f1 with
    | zero => omega
    | succ f1 =>
      cases f2 with
      | zero => omega
      | succ f2 =>
        by_cases hn : n < 128
        · simp [leb128Go, hn]
        · simp only [leb128Go, hn, if_false]
          congr 1
          have haux : n / 128 < n := Nat.div_lt_self (by omega) (by omega)
          exact ih (n / 128) haux f1 f2 (by omega) (by omega)

theorem leb128_eq (n : Nat) :
    leb128 n = if n < 128 then [n] else (n % 128 + 128) :: leb128 (n / 128) := by
  show leb128Go (n + 1) n = _
  by_cases hn : n < 128
  · simp [leb128Go, hn]
  · simp only [leb128Go, hn, if_false]
    congr 1
    have haux : n / 128 < n := Nat.div_lt_self (by omega) (by omega)
    exact leb128Go_irrel (n / 128) n (n / 128 + 1) (by omega) (by omega)

theorem leb128_ne_nil (n : Nat) : leb128 n ≠ [] := by
  rw [leb128_eq]
  split_ifs <;> simp

theorem rv_leb : ∀ (n : Nat) (rest : List Nat) (shift res : Nat),
    shift + 7 * ((leb128 n).length - 1) ≤ 49 →
    readVarIntGo (leb128 n ++ rest) shift res =
      .ok (res + n * 2 ^ shift, (leb128 n).length) := by
  intro n
  induction n using Nat.strong_induction_on with
  | _ n ih =>
    intro rest shift res hbound
    by_cases hn : n < 128
    · rw [leb128_eq] at hbound ⊢
      simp only [hn, if_true, List.length_cons, List.length_nil] at hbound ⊢
      have hsh : ¬ 49 < shift := by omega
      simp [readVarIntGo, hsh, show ¬ 128 ≤ n by omega, Nat.mod_eq_of_lt hn]
    · rw [leb128_eq] at hbound ⊢
      simp only [hn, if_false, List.length_cons] at hbound ⊢
      have hlp : 1 ≤ (leb128 (n / 128)).length :=
        List.length_pos.mpr (leb128_ne_nil _)
      have hsh : ¬ 49 < shift := by omega
      have hb : 128 ≤ n % 128 + 128 := by omega
      simp only [List.cons_append, readVarIntGo, hsh, if_false, hb, if_true, List.append_eq]
      have haux : n / 128 < n := Nat.div_lt_self (by omega) (by omega)
      rw [ih (n / 128) haux rest (shift + 7)
        (res + (n % 128 + 128) % 128 * 2 ^ shift) (by omega)]
      have hmod : (n % 128 + 128) % 128 = n % 128 := by omega
      have hval : res + n % 128 * 2 ^ shift + n / 128 * 2 ^ (shift + 7) =
          res + n * 2 ^ shift := by
        have hmd : n % 128 + 128 * (n / 128) = n := Nat.mod_add_div n 128
        have h7 : (2 : Nat) ^ (shift + 7) = 2 ^ shift * 128 := by
          rw [pow_add]; norm_num
        calc res + n % 128 * 2 ^ shift + n / 128 * 2 ^ (shift + 7)
            = res + (n % 128 + 128 * (n / 128)) * 2 ^ shift := by rw [h7]; ring
          _ = res + n * 2 ^ shift := by rw [hmd]
      dsimp only
      rw [hmod, hval]

theorem leb128_length_le : ∀ (k n : Nat), n < 2 ^ (7 * (k + 1)) →
    (leb128 n).length ≤ k + 1 := by
  intro k
  induction k with
  | zero =>
    intro n h
    rw [leb128_eq]
    have hn : n < 128 := by simpa using h
    simp [hn]
  | succ k ih =>
    intro n h
    rw [leb128_eq]
    by_cases hn : n < 128
    · simp [hn]
    · simp only [hn, if_false, List.length_cons]
      have hdiv : n / 128 < 2 ^ (7 * (k + 1)) := by
        rw [Nat.div_lt_iff_lt_mul (by omega)]
        calc n < 2 ^ (7 * (k + 2)) := h
          _ = 2 ^ (7 * (k + 1)) * 128 := by
              rw [show 7 * (k + 2) = 7 * (k + 1) + 7 by ring, pow_add]
              norm_num
      have := ih (n / 128) hdiv
      omega

theorem jsShr3_small (h : Nat) (hh : h < 2 ^ 31) : jsShr3 h = ((h / 8 : Nat) : Int) := by
  unfold jsShr3 toInt32
  have h32 : h % 2 ^ 32 = h := Nat.mod_eq_of_lt (by omega)
  simp only [h32, hh, if_true]
  rw [Int.fdiv_eq_ediv _ (by norm_num)]
  exact_mod_cast (Int.ofNat_ediv h 8).symm

theorem decodeHeader_of_frame (hw len : Nat) (payload : List Nat)
    (hh : hw < 2 ^ 31) (ht : hw % 8 < 7) (hlen : len < 2 ^ 56) :
    decodeHeader (leb128 hw ++ (leb128 len ++ payload)) =
      .ok { id := ((hw / 8 : Nat) : Int), type := hw % 8,
            offset := (leb128 hw).length + (leb128 len).length, length := len } := by
  have hL1 : (leb128 hw).length ≤ 5 := by
    apply leb128_length_le 4 hw
    calc hw < 2 ^ 31 := hh
      _ < 2 ^ (7 * 5) := by norm_num
  have hL2 : (leb128 len).length ≤ 8 := by
    apply leb128_length_le 7 len
    simpa using hlen
  have r1 := rv_leb hw (leb128 len ++ payload) 0 0 (by omega)
  have r2 := rv_leb len payload 0 0 (by omega)
  simp only [pow_zero, mul_one, zero_add] at r1 r2
  unfold decodeHeader readVarInt
  simp only [List.drop_zero]
  rw [r1]
  dsimp only
  rw [List.drop_left, r2]
  dsimp only
  rw [jsShr3_small hw hh]
  simp [hasMessageTypeName, ht]

theorem decodeLoop_nil (fuel : Nat) (hi : Option MessageHeader) (acc : List Message) :
    decodeLoop fuel [] hi acc = (acc, [], hi) := by
  cases fuel <;> rfl

theorem decoderWrite_frame (hw : Nat) (payload : List Nat)
    (hh : hw < 2 ^ 31) (ht : hw % 8 < 7) (hlen : payload.length < 2 ^ 56) :
    decoderWrite freshDecoder (leb128 hw ++ (leb128 payload.length ++ payload)) =
      ([{ id := ((hw / 8 : Nat) : Int), type := hw % 8,
          data := if isDataType (hw % 8) then some payload else none }],
       freshDecoder) := by
  have hne : (leb128 hw ++ (leb128 payload.length ++ payload)) ≠ [] :=
    fun hc => leb128_ne_nil hw (List.append_eq_nil.mp hc).1
  have hie : (leb128 hw ++ (leb128 payload.length ++ payload)).isEmpty = false :=
    List.isEmpty_eq_false.mpr hne
  have hlen1 : (leb128 hw ++ (leb128 payload.length ++ payload)).length =
      (leb128 hw).length + ((leb128 payload.length).length + payload.length) := by
    simp [List.length_append]
  have hdrop : (leb128 hw ++ (leb128 payload.length ++ payload)).drop
      ((leb128 hw).length + (leb128 payload.length).length) = payload := by
    rw [show leb128 hw ++ (leb128 payload.length ++ payload) =
        (leb128 hw ++ leb128 payload.length) ++ payload from by rw [List.append_assoc]]
    rw [show (leb128 hw).length + (leb128 payload.length).length =
        (leb128 hw ++ leb128 payload.length).length from (List.length_append _ _).symm]
    exact List.drop_left _ _
  have hcond : ¬ ((leb128 hw ++ (leb128 payload.length ++ payload)).length -
      ((leb128 hw).length + (leb128 payload.length).length) < payload.length) := by
    rw [hlen1]; omega
  have hconsume : ((leb128 hw).length + (leb128 payload.length).length) + payload.length =
      (leb128 hw ++ (leb128 payload.length ++ payload)).length := by
    rw [hlen1]; omega
  unfold decoderWrite
  simp only [hie, Bool.false_eq_true, if_false, freshDecoder, List.nil_append]
  simp only [decodeLoop, hie, Bool.false_eq_true, if_false]
  rw [decodeHeader_of_frame hw payload.length payload hh ht hlen]
  simp only [Except.toOption]
  simp only [hcond, if_false]
  rw [hdrop, List.take_length]
  rw [hconsume, List.drop_length]
  rw [decodeLoop_nil]
  simp

/-- Claim C1 (amended): for every valid `Message` — `id` a nonnegative
integer below `2^28`, `type` in `0..6`, `data` present exactly for the
data-bearing types 0, 1, 2, and payload shorter than the decoder's
8-varint-byte ceiling `2^56` — feeding the concatenation of the chunks
returned by `Encoder.write(m)` to a fresh `Decoder.write` emits exactly
`[m]`, with `data` compared by byte equality.  The bound on `id` is forced
by the encoder's 32-bit `id << 3`; see the counterexample at `id = 2^28`. -/
theorem codec_roundtrip_small_id (m : Message)
    (hid0 : 0 ≤ m.id) (hid : m.id < 2 ^ 28) (htype : m.type ≤ 6)
    (hdata : m.data.isSome = isDataType m.type)
    (hlen : (m.data.getD []).length < 2 ^ 56) :
    decoderWrite freshDecoder (encodeBytes m) = ([m], freshDecoder) := by
  obtain ⟨mid, mtype, mdata⟩ := m
  dsimp only at hid0 hid htype hdata hlen ⊢
  have e28 : (2 : Int) ^ 28 = 268435456 := by norm_num
  rw [e28] at hid
  have hidn : mid.toNat < 268435456 := by omega
  have hW : headerWord { id := mid, type := mtype, data := mdata } =
      mid.toNat * 8 + mtype := by
    unfold headerWord
    apply Nat.mod_eq_of_lt
    have e32 : (2 : Nat) ^ 32 = 4294967296 := by norm_num
    dsimp only
    omega
  have hh31 : mid.toNat * 8 + mtype < 2 ^ 31 := by
    have e31 : (2 : Nat) ^ 31 = 2147483648 := by norm_num
    omega
  have htmod : (mid.toNat * 8 + mtype) % 8 = mtype := by
    rw [mul_comm, Nat.mul_add_mod, Nat.mod_eq_of_lt (by omega)]
  have hdivid : (mid.toNat * 8 + mtype) / 8 = mid.toNat := by
    rw [mul_comm, Nat.mul_add_div (by norm_num), Nat.div_eq_of_lt (by omega)]
    omega
  have hcast : ((mid.toNat : Nat) : Int) = mid := Int.toNat_of_nonneg hid0
  cases hdt : isDataType mtype with
  | false =>
    have hnone : mdata = none := by
      rw [hdt] at hdata
      cases mdata with
      | none => rfl
      | some d => simp at hdata
    subst hnone
    have he : encodeBytes { id := mid, type := mtype, data := none } =
        leb128 (headerWord { id := mid, type := mtype, data := none }) ++
          (leb128 (([] : List Nat)).length ++ ([] : List Nat)) := by
      simp [encodeBytes, encodeChunks, hdt]
    rw [he, decoderWrite_frame _ []
      (by rw [hW]; exact hh31)
      (by rw [hW, htmod]; omega)
      (by simp)]
    rw [hW, htmod, hdivid, hcast]
    simp [hdt]
  | true =>
    obtain ⟨d, hd⟩ : ∃ d, mdata = some d := by
      cases mdata with
      | none => rw [hdt] at hdata; simp at hdata
      | some d => exact ⟨d, rfl⟩
    subst hd
    have hlend : d.length < 2 ^ 56 := by simpa using hlen
    have he : encodeBytes { id := mid, type := mtype, data := some d } =
        leb128 (headerWord { id := mid, type := mtype, data := some d }) ++
          (leb128 d.length ++ d) := by
      simp [encodeBytes, encodeChunks, hdt]
    rw [he, decoderWrite_frame _ d
      (by rw [hW]; exact hh31)
      (by rw [hW, htmod]; omega)
      hlend]
    rw [hW, htmod, hdivid, hcast]
    simp [hdt]

/-- Claim C1 counterexample: the message with `id = 2^28`, `type = 3`
(`CLOSE_RECEIVER`, no data) is valid as the claim states it — id an
unsigned integer, type in `0..6`, data absent for a non-data type — yet
encoding and decoding it does not return the message: the encoder's 32-bit
`id << 3` wraps the header word to `2^31 + 3` and the decoder's signed
`h >> 3` turns it into `id = -2^28`. -/
theorem codec_roundtrip_fails_at_id_2_pow_28 :
    (0 : Int) ≤ 2 ^ 28 ∧ (3 : Nat) ≤ 6 ∧
    (Message.mk (2 ^ 28) 3 none).data.isSome = isDataType 3 ∧
    (decoderWrite freshDecoder (encodeBytes { id := 2 ^ 28, type := 3, data := none })).1 ≠
      [{ id := 2 ^ 28, type := 3, data := none }] ∧
    (decoderWrite freshDecoder (encodeBytes { id := 2 ^ 28, type := 3, data := none })).1 =
      [{ id := -(2 ^ 28), type := 3, data := none }] := by
  decide

/-- Claim C1 witness: the round trip at the concrete message
`{ id := 17, type := 0, data := "17" }` (the spec's worked example). -/
theorem codec_roundtrip_small_id_witness :
    decoderWrite freshDecoder (encodeBytes { id := 17, type := 0, data := some [49, 55] }) =
      ([{ id := 17, type := 0, data := some [49, 55] }], freshDecoder) :=
  codec_roundtrip_small_id { id := 17, type := 0, data := some [49, 55] }
    (by decide) (by decide) (by decide) (by decide) (by decide)
